import Mathlib

/-!
Verification development for the parts-price-updater repository
(`xero_price_updater.py`).  The Python source is shallowly embedded:
pure string manipulation becomes Lean functions on `String`/`List Char`,
page/browser interactions become explicit environment records describing
what each DOM query would return, exceptions become `Except`/`Option`
values, and Python floats are modelled as exact rationals (`ℚ`).
-/

namespace VWDU

/-- Characters removed by Python's `str.strip()` with no argument
(space, tab, newline, carriage return, vertical tab, form feed). -/
def isPyWhitespace (c : Char) : Bool :=
  c == ' ' || c == '\t' || c == '\n' || c == '\r' || c == Char.ofNat 11 || c == Char.ofNat 12

/-- List-level model of Python `str.strip()`. -/
def stripList (l : List Char) : List Char :=
  ((l.dropWhile isPyWhitespace).reverse.dropWhile isPyWhitespace).reverse

/-- Model of Python `s.strip()`. -/
def pyStrip (s : String) : String :=
  String.mk (stripList s.toList)

/-- List-level model of Python `str.rstrip('/')`: drops every trailing `/`. -/
def rstripSlashList (l : List Char) : List Char :=
  (l.reverse.dropWhile (fun c => c == '/')).reverse

/-- Model of Python `s.rstrip('/')`. -/
def pyRStripSlash (s : String) : String :=
  String.mk (rstripSlashList s.toList)

/-- Model of Python `s.upper()` (adequate on the ASCII identifiers at stake). -/
def pyUpper (s : String) : String :=
  String.mk (s.toList.map Char.toUpper)

/-- Model of Python `s.replace(' ', '')`. -/
def removeSpaces (s : String) : String :=
  String.mk (s.toList.filter (fun c => c != ' '))

/-- Model of Python `s.replace('/', '')`. -/
def removeSlashes (s : String) : String :=
  String.mk (s.toList.filter (fun c => c != '/'))

/-- Splits a character list at its last space character:
`splitLastSpace l = some (d, k)` when `l = d ++ ' ' :: k` and `k` has no
space; `none` when `l` has no space.  This is the list-level content of
Python `l.rsplit(' ', 1)`. -/
def splitLastSpace : List Char → Option (List Char × List Char)
  | [] => none
  | c :: cs =>
    match splitLastSpace cs with
    | some (d, k) => some (c :: d, k)
    | none => if c == ' ' then some ([], cs) else none

/-- Model of `extract_sku_from_name` from `xero_price_updater.py` (lines 63-75):
`item_name.rsplit(' ', 1)`; when the name contains a space, the part after
the last space is stripped and has its trailing slashes removed and is
returned as the SKU; otherwise the SKU is empty. -/
def extract_sku_from_name (item_name : String) : String × String :=
  match splitLastSpace item_name.toList with
  | some (d, k) =>
      (pyStrip (String.mk d), pyRStripSlash (pyStrip (String.mk k)))
  | none => (item_name, "")

/-- Decision procedure `listStartsWith hay needle`: decides whether `needle` is an initial
segment of `hay` (model of Python `str.startswith`). -/
def listStartsWith : List Char → List Char → Bool
  | _, [] => true
  | [], _ :: _ => false
  | c :: cs, d :: ds => c == d && listStartsWith cs ds

/-- Model of Python `s.startswith(p)`. -/
def pyStartsWith (s p : String) : Bool :=
  listStartsWith s.toList p.toList

/-- Decision procedure `listHasInfix needle hay`: decides whether `needle` occurs as a
contiguous substring of `hay` (model of Python `needle in hay`). -/
def listHasInfix (needle : List Char) : List Char → Bool
  | [] => listStartsWith [] needle
  | c :: cs => listStartsWith (c :: cs) needle || listHasInfix needle cs

/-- Model of Python `needle in hay` on strings. -/
def strContains (hay needle : String) : Bool :=
  listHasInfix needle.toList hay.toList

/-- The two catalog websites of `determine_website`. -/
inductive Website where
  | justkampers : Website
  | heritage : Website
deriving DecidableEq

/-- Model of `determine_website` from `xero_price_updater.py` (lines 77-82):
`sku.startswith('J')` routes to JustKampers, everything else to Heritage. -/
def determine_website (sku : String) : Website :=
  if pyStartsWith sku "J" then Website.justkampers else Website.heritage

/-- Value of a decimal-digit character. -/
def digitVal (c : Char) : ℕ := c.toNat - 48

/-- Value of a digit string read left to right. -/
def digitsVal (l : List Char) : ℕ :=
  l.foldl (fun a c => 10 * a + digitVal c) 0

/-- Model of Python `float(s)` on the fragment reaching it in this
program: optional surrounding whitespace, optional sign, digits, optional
decimal point, digits — at least one digit in total; everything else is a
`ValueError`, modelled as `none`.  The result is an exact rational. -/
def pyFloat (s : String) : Option ℚ :=
  let l := (pyStrip s).toList
  let sl : Int × List Char :=
    match l with
    | '-' :: r => (-1, r)
    | '+' :: r => (1, r)
    | _ => (1, l)
  let ip := sl.2.takeWhile Char.isDigit
  match sl.2.dropWhile Char.isDigit with
  | [] => if ip.isEmpty then none else some (mkRat (sl.1 * (digitsVal ip : Int)) 1)
  | '.' :: fr =>
    let fp := fr.takeWhile Char.isDigit
    if (fr.dropWhile Char.isDigit).isEmpty then
      if ip.isEmpty && fp.isEmpty then none
      else
        some (mkRat (sl.1 * ((digitsVal ip * 10 ^ fp.length + digitsVal fp : ℕ) : Int))
          (10 ^ fp.length))
    else none
  | _ => none

/-- Character class `[\d,]` of the money pattern. -/
def isDigitOrComma (c : Char) : Bool := c.isDigit || c == ','

/-- Greedy tail of a money match whose start is the head of `l`:
`[\d,]+` then an optional `.` then `\d*`. -/
def moneyTail (l : List Char) : List Char :=
  let run1 := l.takeWhile isDigitOrComma
  match l.dropWhile isDigitOrComma with
  | '.' :: r2 => run1 ++ '.' :: r2.takeWhile Char.isDigit
  | _ => run1

/-- Model of `re.search(r'[\d,]+\.?\d*', s)`: the match begins at the
first digit-or-comma character and is greedy; `none` when no such
character occurs. -/
def reSearchMoney (s : String) : Option String :=
  match s.toList.dropWhile (fun c => !(isDigitOrComma c)) with
  | [] => none
  | c :: cs => some (String.mk (moneyTail (c :: cs)))

/-- Model of Python `s.replace(',', '')`. -/
def removeCommas (s : String) : String :=
  String.mk (s.toList.filter (fun c => c != ','))

/-- Python truthiness of an optional string (`None` and `""` are falsy). -/
def pyTruthy (o : Option String) : Bool :=
  match o with
  | some s => s != ""
  | none => false

/-! ### JustKampers adapter (`search_justkampers`, lines 84-208)

The browser session is abstracted into an environment record: `loadErr`
models any exception raised before the product loop (driver start, page
load, result enumeration); each product records what the DOM queries made
against it would return. -/

/-- A price element of a JustKampers listing: its `data-price-amount`
attribute (absent or a string) and its visible text. -/
structure JKPriceElem where
  dataPriceAmount : Option String
  text : String
deriving DecidableEq

/-- A candidate product entry on the JustKampers results page.
`fault` models an exception raised while inspecting this product (caught
by the per-product `except Exception: continue`); `skuLabels` are the
texts of its `div.amlabel-text` elements; `priceElems` gives, per price
selector in order, the element found (or `none` for
`NoSuchElementException`); `linkPresent` tells whether the click-through
product link exists and `pageTexts` gives, per selector, the text of the
price element found on the product page. -/
structure JKProduct where
  fault : Option String
  skuLabels : List String
  priceElems : List (Option JKPriceElem)
  linkPresent : Bool
  pageTexts : List (Option String)
deriving DecidableEq

/-- Environment of one JustKampers search. -/
structure JKEnv where
  loadErr : Option String
  products : List JKProduct
deriving DecidableEq

/-- First nonempty stripped SKU label of a product (lines 130-138);
`""` when none. -/
def jkFirstLabel : List String → String
  | [] => ""
  | t :: ts => let s := pyStrip t; if s != "" then s else jkFirstLabel ts

/-- The cleaned search SKU of `search_justkampers` (line 93). -/
def jkSearchSku (sku : String) : String := pyStrip sku

/-- The normalized target `search_sku_normalized` (line 94): upper-cased
only — no space or slash removal. -/
def jkTarget (sku : String) : String := pyUpper (jkSearchSku sku)

/-- The identity test of line 141: candidate label upper-cased against
the upper-cased stripped target. -/
def jkMatch (sku : String) (p : JKProduct) : Bool :=
  pyUpper (jkFirstLabel p.skuLabels) == jkTarget sku

/-- Result of one price-selector attempt in the JustKampers listing. -/
inductive SelRes where
  | found : ℚ → SelRes
  | nextSel : SelRes
  | raised : SelRes
deriving DecidableEq

/-- One selector attempt of lines 152-172: absent element is a caught
`NoSuchElementException` (next selector); a truthy `data-price-amount`
attribute is parsed by `float` (a `ValueError` escapes the selector loop);
otherwise nonempty text goes through the money regex and `float`. -/
def jkListingStep : Option JKPriceElem → SelRes
  | none => SelRes.nextSel
  | some e =>
    if pyTruthy e.dataPriceAmount then
      match pyFloat (e.dataPriceAmount.getD "") with
      | some p => SelRes.found p
      | none => SelRes.raised
    else if e.text != "" then
      match reSearchMoney e.text with
      | some m =>
        match pyFloat (removeCommas m) with
        | some p => SelRes.found p
        | none => SelRes.raised
      | none => SelRes.nextSel
    else SelRes.nextSel

/-- The in-listing price cascade of `search_justkampers`: first
successful selector wins; an uncaught `ValueError` aborts the cascade. -/
def jkCascade : List (Option JKPriceElem) → SelRes
  | [] => SelRes.nextSel
  | e :: es =>
    match jkListingStep e with
    | SelRes.found p => SelRes.found p
    | SelRes.raised => SelRes.raised
    | SelRes.nextSel => jkCascade es

/-- The product-page loop shared by both adapters (JustKampers lines
181-192, Heritage lines 359-370): per selector, an absent element is a
caught `NoSuchElementException`; found text goes through the money regex
(no match falls through to the next selector) and `float` (a `ValueError`
aborts the loop, modelled as `none`). -/
def pagePriceLoop : List (Option String) → Option ℚ
  | [] => none
  | none :: ts => pagePriceLoop ts
  | some t :: ts =>
    match reSearchMoney t with
    | none => pagePriceLoop ts
    | some m =>
      match pyFloat (removeCommas m) with
      | none => none
      | some p => some p

/-- The candidate loop of `search_justkampers` (lines 127-204).  A
faulted product and a product whose listing cascade raised are skipped by
the per-product `except Exception: continue`; a matched product whose
cascade is exhausted goes to its product page (any failure there is
swallowed by the bare `except: pass`, then `return None`). -/
def jkLoop (sku : String) : List JKProduct → Option ℚ
  | [] => none
  | p :: ps =>
    if p.fault.isSome then jkLoop sku ps
    else if jkMatch sku p then
      match jkCascade p.priceElems with
      | SelRes.found price => some price
      | SelRes.raised => jkLoop sku ps
      | SelRes.nextSel =>
        if p.linkPresent then pagePriceLoop p.pageTexts else none
    else jkLoop sku ps

/-- Body of `search_justkampers` inside its outer `try`: a load-level
exception propagates as `Except.error`. -/
def jkBody (env : JKEnv) (sku : String) : Except String (Option ℚ) :=
  match env.loadErr with
  | some e => Except.error e
  | none => Except.ok (jkLoop sku env.products)

/-- Model of `search_justkampers` (lines 84-208): the outer
`except Exception: return None` converts every escaping error to an
absent result. -/
def search_justkampers (env : JKEnv) (sku : String) : Option ℚ :=
  match jkBody env sku with
  | Except.ok r => r
  | Except.error _ => none

/-! ### Heritage adapter (`search_heritage`, lines 210-381) -/

/-- A price element of a Heritage listing: visible text, the parent's
`data-price-including-tax` attribute, and the element's
`data-price-amount`, `content` and `innerText` attributes. -/
structure HPriceElem where
  text : String
  parentTaxAttr : Option String
  dataPriceAmount : Option String
  contentAttr : Option String
  innerTextAttr : Option String
deriving DecidableEq

/-- A candidate product entry on the Heritage results page. `skuElems`
gives, per SKU selector in order, the text of the element found (`none`
for an absent element); `title` is the text of the product title link
when present. -/
structure HProduct where
  fault : Option String
  skuElems : List (Option String)
  title : Option String
  priceElems : List (Option HPriceElem)
  linkPresent : Bool
  pageTexts : List (Option String)
deriving DecidableEq

/-- Environment of one Heritage search: `gridPresent` models whether the
`products-grid` element appears before the explicit wait times out
(lines 250-256). -/
structure HEnv where
  loadErr : Option String
  gridPresent : Bool
  products : List HProduct
deriving DecidableEq

/-- The cleaned Heritage search SKU (line 219): stripped, trailing
slashes removed. -/
def hSearchSku (sku : String) : String := pyRStripSlash (pyStrip sku)

/-- Heritage normalization (lines 221 and 306): remove spaces, remove
slashes, upper-case. -/
def heritageNormalize (s : String) : String :=
  pyUpper (removeSlashes (removeSpaces s))

/-- The `search_sku_normalized` value of line 221. -/
def hTarget (sku : String) : String := heritageNormalize (hSearchSku sku)

/-- First nonempty stripped SKU text over the SKU selectors
(lines 284-292); `""` when none. -/
def hFirstSku : List (Option String) → String
  | [] => ""
  | none :: ts => hFirstSku ts
  | some t :: ts => let s := pyStrip t; if s != "" then s else hFirstSku ts

/-- The candidate's displayed identifier (lines 275-303): the first SKU
element text, else the search SKU itself when it occurs as a substring of
the product title. -/
def hSkuText (searchSku : String) (p : HProduct) : String :=
  let s := hFirstSku p.skuElems
  if s != "" then s
  else
    match p.title with
    | some t => if strContains t searchSku then searchSku else ""
    | none => ""

/-- The identity test of line 309: both sides normalized by removing
spaces and slashes and upper-casing. -/
def hMatch (sku : String) (p : HProduct) : Bool :=
  heritageNormalize (hSkuText (hSearchSku sku) p) == hTarget sku

/-- Resolution of `price_text` (lines 327-339): element text, else the
first truthy attribute of the chain. -/
def hResolvedText (e : HPriceElem) : String :=
  if e.text != "" then e.text
  else
    let t1 := e.parentTaxAttr.getD ""
    if t1 != "" then t1
    else
      let t2 := e.dataPriceAmount.getD ""
      if t2 != "" then t2
      else
        let t3 := e.contentAttr.getD ""
        if t3 != "" then t3
        else e.innerTextAttr.getD ""

/-- One Heritage listing selector attempt (lines 322-351): every failure
mode — absent element, empty text, no regex match, `float` error — is
caught by the `except Exception: continue`, and a parsed value is
returned only when strictly positive (line 346). -/
def hListingStep : Option HPriceElem → Option ℚ
  | none => none
  | some e =>
    let t := hResolvedText e
    if t == "" then none
    else
      match reSearchMoney t with
      | none => none
      | some m =>
        match pyFloat (removeCommas m) with
        | none => none
        | some p => if 0 < p then some p else none

/-- The Heritage in-listing price cascade: first successful selector
wins. -/
def hListingCascade : List (Option HPriceElem) → Option ℚ
  | [] => none
  | e :: es =>
    match hListingStep e with
    | some p => some p
    | none => hListingCascade es

/-- The candidate loop of `search_heritage` (lines 272-377).  A matched
product with an exhausted listing cascade goes to its product page; a
missing product link raises into the per-product handler and every
product-page failure also ends in `continue`, so the loop proceeds to
the next candidate. -/
def hLoop (sku : String) : List HProduct → Option ℚ
  | [] => none
  | p :: ps =>
    if p.fault.isSome then hLoop sku ps
    else if hMatch sku p then
      match hListingCascade p.priceElems with
      | some price => some price
      | none =>
        if p.linkPresent then
          match pagePriceLoop p.pageTexts with
          | some price => some price
          | none => hLoop sku ps
        else hLoop sku ps
    else hLoop sku ps

/-- Body of `search_heritage` inside its outer `try`: an absent results
grid returns `None` (lines 250-256); a load-level exception propagates. -/
def hBody (env : HEnv) (sku : String) : Except String (Option ℚ) :=
  match env.loadErr with
  | some e => Except.error e
  | none =>
    if env.gridPresent then Except.ok (hLoop sku env.products)
    else Except.ok none

/-- Model of `search_heritage` (lines 210-381) with its outer
`except Exception: return None`. -/
def search_heritage (env : HEnv) (sku : String) : Option ℚ :=
  match hBody env sku with
  | Except.ok r => r
  | Except.error _ => none

/-! ### Lookup facade (`get_price`, lines 383-401) -/

/-- Model of `get_price`: extract the SKU, return `(None, "unknown")` on an empty
SKU, otherwise route and tag with the catalog's display name.  The two
adapters are passed as oracles so that non-invocation is expressible. -/
def get_price (jk her : String → Option ℚ) (item_name : String) :
    Option ℚ × String :=
  let sku := (extract_sku_from_name item_name).2
  if sku == "" then (none, "unknown")
  else
    match determine_website sku with
    | Website.justkampers => (jk sku, "JustKampers")
    | Website.heritage => (her sku, "Heritage Parts Centre")

/-- The source enumeration of the specification's data model. -/
inductive Source where
  | CatalogA : Source
  | CatalogB : Source
  | Unknown : Source
deriving DecidableEq

/-- Display-name to catalog mapping: `"JustKampers"` is CatalogA,
`"Heritage Parts Centre"` is CatalogB, anything else (the code's
`"unknown"`) is the Unknown source. -/
def sourceOfString (s : String) : Source :=
  if s == "JustKampers" then Source.CatalogA
  else if s == "Heritage Parts Centre" then Source.CatalogB
  else Source.Unknown

/-- The specification's `PriceResult`. -/
structure PriceResult where
  price : Option ℚ
  source : Source
  sourceUrl : Option String
deriving DecidableEq

/-- The `PriceResult` view of a `get_price` result.  The code never
produces a product URL, so `sourceUrl` is always absent. -/
def priceResultOf (pr : Option ℚ × String) : PriceResult :=
  { price := pr.1, source := sourceOfString pr.2, sourceUrl := none }

/-- An adapter oracle that never finds a price. -/
def noAdapter : String → Option ℚ := fun _ => none

/-! ### Batch processing (`process_xero_export`, lines 404-523)

A CSV row, as produced by `csv.DictReader`, is an insertion-ordered
dictionary: an association list of field name and value. -/

/-- A spreadsheet row. -/
abbrev Row : Type := List (String × String)

/-- Model of Python `row.get(k)`: value of the first binding of `k`. -/
def dictGet : Row → String → Option String
  | [], _ => none
  | kv :: r, k => if kv.1 == k then some kv.2 else dictGet r k

/-- Replaces the value of every binding of `k` (positions kept). -/
def dictReplace : Row → String → String → Row
  | [], _, _ => []
  | kv :: r, k, v => (if kv.1 == k then (k, v) else kv) :: dictReplace r k v

/-- Whether the row has a binding for `k`. -/
def hasKey (row : Row) (k : String) : Bool :=
  row.any (fun kv => kv.1 == k)

/-- Model of Python `row[k] = v` on a dict: replace in place when the key
exists, append otherwise. -/
def dictSet (row : Row) (k v : String) : Row :=
  if hasKey row k then dictReplace row k v else row ++ [(k, v)]

/-- Model of `item.get('ItemCode', item.get('*ItemCode', ''))` (line 431). -/
def itemCodeOf (row : Row) : String :=
  match dictGet row "ItemCode" with
  | some v => v
  | none => (dictGet row "*ItemCode").getD ""

/-- Model of `item.get('ItemName', '')` (line 432). -/
def itemNameOf (row : Row) : String := (dictGet row "ItemName").getD ""

/-- Model of `float(item.get('SalesUnitPrice', 0))` (line 433): `none` models the
`ValueError` that aborts the batch. -/
def currentPriceOf (row : Row) : Option ℚ :=
  match dictGet row "SalesUnitPrice" with
  | some s => pyFloat s
  | none => some 0

/-- The percentage difference of line 442: computed by division only
when the current price is strictly positive, otherwise `0`. -/
def diffPct (cur diff : ℚ) : ℚ :=
  if 0 < cur then diff / cur * 100 else 0

/-- Executable absolute value on `ℚ` (model of Python `abs`). -/
def pyAbs (q : ℚ) : ℚ := if q < 0 then -q else q

/-- The comparison outcome of one row (the record appended to `updates`,
`unchanged` or `errors`). -/
inductive Outcome where
  | updated (code name : String) (old new diff pct : ℚ) (src : String) : Outcome
  | unchanged (code name : String) (price : ℚ) (src : String) : Outcome
  | error (code name : String) (cur : ℚ) (msg : String) : Outcome
deriving DecidableEq

/-- Whether an outcome is an update. -/
def Outcome.isUpdated : Outcome → Bool
  | Outcome.updated _ _ _ _ _ _ _ => true
  | _ => false

/-- Processing of one row (lines 431-469), parameterized by the lookup
oracle (`scraper.get_price`) and by `render`, the model of Python
`str(new_price)`.  Returns the written-back row together with its
outcome; `Except.error` models the `ValueError` of an unparsable current
price, which aborts the whole batch. -/
def classifyRow (oracle : String → Option ℚ × String) (render : ℚ → String)
    (row : Row) : Except String (Row × Outcome) :=
  match currentPriceOf row with
  | none => Except.error "ValueError: could not convert string to float"
  | some cur =>
    let code := itemCodeOf row
    let name := itemNameOf row
    match oracle name with
    | (some newp, src) =>
      let d := newp - cur
      if mkRat 1 100 < pyAbs d then
        Except.ok (dictSet row "SalesUnitPrice" (render newp),
          Outcome.updated code name cur newp d (diffPct cur d) src)
      else
        Except.ok (row, Outcome.unchanged code name cur src)
    | (none, _) =>
      Except.ok (row, Outcome.error code name cur "Price not found")

/-- The batch loop of `process_xero_export`: rows processed in order,
outcome recorded per row, continuing after every absent price. -/
def processItems (oracle : String → Option ℚ × String) (render : ℚ → String) :
    List Row → Except String (List (Row × Outcome))
  | [] => Except.ok []
  | r :: rs =>
    match classifyRow oracle render r with
    | Except.error e => Except.error e
    | Except.ok x =>
      match processItems oracle render rs with
      | Except.error e => Except.error e
      | Except.ok xs => Except.ok (x :: xs)

/-! ### The specification's normalization, for comparison (claim C1) -/

/-- Modelled from the spec: the identifier normalization of section 4.3
step 4 — "removing spaces and slashes and upper-casing". -/
def specNormalize (s : String) : String :=
  pyUpper (removeSlashes (removeSpaces s))

/-- Decidable equality on `Except`, for evaluating batch results. -/
instance {ε α : Type} [DecidableEq ε] [DecidableEq α] : DecidableEq (Except ε α) :=
  fun a b =>
    match a, b with
    | Except.ok x, Except.ok y =>
      if h : x = y then Decidable.isTrue (by rw [h])
      else Decidable.isFalse (by intro hc; injection hc; contradiction)
    | Except.error x, Except.error y =>
      if h : x = y then Decidable.isTrue (by rw [h])
      else Decidable.isFalse (by intro hc; injection hc; contradiction)
    | Except.ok _, Except.error _ => Decidable.isFalse (by intro hc; injection hc)
    | Except.error _, Except.ok _ => Decidable.isFalse (by intro hc; injection hc)

/-! ### Concrete scenarios used by counterexamples and witnesses -/

/-- A JustKampers candidate labelled `J1` with price `5` in its
`data-price-amount` attribute. -/
def jkProductJ1 : JKProduct :=
  { fault := none, skuLabels := ["J1"],
    priceElems := [some { dataPriceAmount := some "5", text := "" }],
    linkPresent := false, pageTexts := [] }

/-- A search-results page holding only `jkProductJ1`. -/
def jkEnvJ1 : JKEnv := { loadErr := none, products := [jkProductJ1] }

/-- A JustKampers candidate labelled `J2` whose `data-price-amount`
attribute carries `0`. -/
def jkProductJ2Zero : JKProduct :=
  { fault := none, skuLabels := ["J2"],
    priceElems := [some { dataPriceAmount := some "0", text := "" }],
    linkPresent := false, pageTexts := [] }

/-- A search-results page holding only `jkProductJ2Zero`. -/
def jkEnvJ2Zero : JKEnv := { loadErr := none, products := [jkProductJ2Zero] }

/-- A Heritage price element displaying `£0.00`. -/
def hElemZero : HPriceElem :=
  { text := "£0.00", parentTaxAttr := none, dataPriceAmount := none,
    contentAttr := none, innerTextAttr := none }

/-- A Heritage price element displaying `£5.00`. -/
def hElemFive : HPriceElem :=
  { text := "£5.00", parentTaxAttr := none, dataPriceAmount := none,
    contentAttr := none, innerTextAttr := none }

/-- A Heritage candidate with SKU `A1`, a zero price in its listing, and
`£0.00` again on its own product page. -/
def hProductA1Zero : HProduct :=
  { fault := none, skuElems := [some "A1"], title := none,
    priceElems := [some hElemZero],
    linkPresent := true, pageTexts := [some "£0.00"] }

/-- A Heritage results page holding only `hProductA1Zero`. -/
def hEnvA1Zero : HEnv :=
  { loadErr := none, gridPresent := true, products := [hProductA1Zero] }

/-- A Heritage candidate with SKU `A1` whose price extraction fails
everywhere (no price elements, product page without digits). -/
def hProductA1Bare : HProduct :=
  { fault := none, skuElems := [some "A1"], title := none,
    priceElems := [some hElemZero],
    linkPresent := true, pageTexts := [some "no price here"] }

/-- A JustKampers candidate that matches no target at stake (label `X9`). -/
def jkProductOther : JKProduct :=
  { fault := none, skuLabels := ["X9"], priceElems := [],
    linkPresent := false, pageTexts := [] }

/-- A second JustKampers candidate labelled `J1`, with price `7` — a
later duplicate that a first-match-wins search must ignore. -/
def jkProductJ1Late : JKProduct :=
  { fault := none, skuLabels := ["J1"],
    priceElems := [some { dataPriceAmount := some "7", text := "" }],
    linkPresent := false, pageTexts := [] }

/-- A Heritage candidate with SKU `B2` and no price. -/
def hProductOther : HProduct :=
  { fault := none, skuElems := [some "B2"], title := none, priceElems := [],
    linkPresent := false, pageTexts := [] }

/-- A Heritage candidate with SKU `A1` and listing price `£5.00`. -/
def hProductA1Five : HProduct :=
  { fault := none, skuElems := [some "A1"], title := none,
    priceElems := [some hElemFive],
    linkPresent := false, pageTexts := [] }

/-- A Heritage price element displaying `£7.00`. -/
def hElemSeven : HPriceElem :=
  { text := "£7.00", parentTaxAttr := none, dataPriceAmount := none,
    contentAttr := none, innerTextAttr := none }

/-- A second Heritage candidate with SKU `A1`, listing price `£7.00` — a
later duplicate that a first-match-wins search must ignore. -/
def hProductA1Late : HProduct :=
  { fault := none, skuElems := [some "A1"], title := none,
    priceElems := [some hElemSeven],
    linkPresent := false, pageTexts := [] }

/-- A JustKampers environment whose page load raised. -/
def jkEnvErr : JKEnv := { loadErr := some "timeout", products := [] }

/-- A Heritage environment whose page load raised. -/
def hEnvErr : HEnv :=
  { loadErr := some "timeout", gridPresent := true, products := [] }

/-- A sample spreadsheet row. -/
def wRow : Row :=
  [("ItemCode", "X1"), ("ItemName", "Part J1"), ("SalesUnitPrice", "10")]

/-- A lookup oracle that never finds a price. -/
def wOracleNone : String → Option ℚ × String := fun _ => (none, "JustKampers")

/-- A lookup oracle returning `10.01` (difference of exactly `0.01`
against `wRow`). -/
def wOracleUnch : String → Option ℚ × String :=
  fun _ => (some (mkRat 1001 100), "Heritage Parts Centre")

/-- A lookup oracle returning `10.0101` (difference of `0.0101` against
`wRow`). -/
def wOracleUpd : String → Option ℚ × String :=
  fun _ => (some (mkRat 100101 10000), "Heritage Parts Centre")

/-- A sample model of Python `str` on prices. -/
def wRender : ℚ → String := fun _ => "20"

/-- The batch result on `[wRow]` with an absent price. -/
def wOut : List (Row × Outcome) :=
  match processItems wOracleNone wRender [wRow] with
  | Except.ok o => o
  | Except.error _ => []

/-! ### Helper lemmas -/

theorem splitLastSpace_eq_none : ∀ {l : List Char}, splitLastSpace l = none → ' ' ∉ l := by
  intro l
  induction l with
  | nil => intro _ h; simp at h
  | cons c cs ih =>
    intro h
    simp only [splitLastSpace] at h
    rcases hcs : splitLastSpace cs with _ | ⟨d, k⟩
    · rw [hcs] at h
      intro hmem
      rcases List.mem_cons.mp hmem with hh | hm
      · rw [← hh] at h; simp at h
      · exact ih hcs hm
    · rw [hcs] at h; simp at h

theorem splitLastSpace_of_not_mem : ∀ {l : List Char}, ' ' ∉ l → splitLastSpace l = none := by
  intro l
  induction l with
  | nil => intro _; rfl
  | cons c cs ih =>
    intro h
    have hc : ¬ (c == ' ') = true := by
      intro hb
      exact h (by rw [eq_of_beq hb]; exact List.mem_cons_self _ _)
    have hcs : ' ' ∉ cs := fun hm => h (List.mem_cons_of_mem _ hm)
    simp only [splitLastSpace, ih hcs]
    rw [if_neg hc]

theorem splitLastSpace_eq_some :
    ∀ {l d k : List Char}, splitLastSpace l = some (d, k) →
      l = d ++ ' ' :: k ∧ ' ' ∉ k := by
  intro l
  induction l with
  | nil => intro d k h; simp [splitLastSpace] at h
  | cons c cs ih =>
    intro d k h
    simp only [splitLastSpace] at h
    rcases hcs : splitLastSpace cs with _ | ⟨d2, k2⟩
    · rw [hcs] at h
      by_cases hc : (c == ' ') = true
      · rw [if_pos hc] at h
        injection h with h2
        injection h2 with hd hk
        subst hd; subst hk
        exact ⟨by rw [eq_of_beq hc]; rfl, splitLastSpace_eq_none hcs⟩
      · rw [if_neg hc] at h; simp at h
    · rw [hcs] at h
      injection h with h2
      injection h2 with hd hk
      subst hd; subst hk
      obtain ⟨hcs2, hk2⟩ := ih hcs
      exact ⟨by rw [hcs2]; rfl, hk2⟩

theorem splitLastSpace_append {d k : List Char} (hk : ' ' ∉ k) :
    splitLastSpace (d ++ ' ' :: k) = some (d, k) := by
  induction d with
  | nil =>
    simp only [List.nil_append, splitLastSpace, splitLastSpace_of_not_mem hk]
    rfl
  | cons c d2 ih =>
    simp only [List.cons_append, splitLastSpace]
    rw [List.append_eq, ih]

theorem determine_website_head (s : String) :
    determine_website s =
      if s.toList.head? = some 'J' then Website.justkampers else Website.heritage := by
  unfold determine_website pyStartsWith
  have hJ : ("J" : String).toList = ['J'] := rfl
  rw [hJ]
  cases hl : s.toList with
  | nil => simp [listStartsWith]
  | cons c cs =>
    simp only [listStartsWith, List.head?]
    by_cases hc : c = 'J'
    · subst hc; simp
    · simp [hc]

/-! ### Claim theorems -/

/-- C5 (amended, positive part): for every item name containing at least
one space character, `extract_sku_from_name` returns as identifier the
substring after the last space — given here as the `k` of the unique
decomposition `name = d ++ ' ' :: k` with no space in `k` — with
surrounding whitespace trimmed and all trailing `/` characters stripped;
the description is the part before that space, trimmed.  (The function is
total by construction.) -/
theorem extract_sku_after_last_space (name : String) (d k : List Char)
    (h : name.toList = d ++ ' ' :: k) (hk : ' ' ∉ k) :
    (extract_sku_from_name name).2 = pyRStripSlash (pyStrip (String.mk k)) ∧
    (extract_sku_from_name name).1 = pyStrip (String.mk d) := by
  unfold extract_sku_from_name
  rw [h, splitLastSpace_append hk]
  exact ⟨rfl, rfl⟩

/-- C5 witness: the theorem evaluated on `"Brake Caliper J21066"`. -/
theorem extract_sku_after_last_space_witness :
    (extract_sku_from_name "Brake Caliper J21066").2 =
      pyRStripSlash (pyStrip (String.mk ['J', '2', '1', '0', '6', '6'])) ∧
    (extract_sku_from_name "Brake Caliper J21066").1 =
      pyStrip (String.mk ['B', 'r', 'a', 'k', 'e', ' ', 'C', 'a', 'l', 'i', 'p', 'e', 'r']) :=
  extract_sku_after_last_space "Brake Caliper J21066"
    ['B', 'r', 'a', 'k', 'e', ' ', 'C', 'a', 'l', 'i', 'p', 'e', 'r']
    ['J', '2', '1', '0', '6', '6'] (by decide) (by decide)

/-- C5 counterexample: the claim as stated is false on the code.  The
name `"a\tb/"` contains a whitespace character (a tab) but the extractor
splits only on the space character, so the identifier is empty, not
`"b"`; and the name `"X ABC//"` has identifier `"ABC"` — every trailing
slash is stripped, not a single one, so it is not `"ABC/"`. -/
theorem extract_sku_counterexample :
    (extract_sku_from_name "a\tb/").2 = "" ∧
    (extract_sku_from_name "a\tb/").2 ≠ "b" ∧
    (extract_sku_from_name "X ABC//").2 = "ABC" ∧
    (extract_sku_from_name "X ABC//").2 ≠ "ABC/" := by decide

/-- C6: for every item name with no whitespace character, the extracted
identifier is empty and `get_price` returns an absent price and the
`"unknown"` source — the code's realization of the spec's Unknown
source — for any pair of adapter oracles, hence without invoking either
catalog adapter; at the `PriceResult` level price, source and URL are
absent, `Unknown`, absent (the code never produces a URL). -/
theorem get_price_no_whitespace (name : String) (jk her : String → Option ℚ)
    (h : ∀ c ∈ name.toList, isPyWhitespace c = false) :
    (extract_sku_from_name name).2 = "" ∧
    get_price jk her name = (none, "unknown") ∧
    priceResultOf (get_price jk her name) =
      { price := none, source := Source.Unknown, sourceUrl := none } := by
  have hs : ' ' ∉ name.toList := by
    intro hm
    have hw := h ' ' hm
    simp [isPyWhitespace] at hw
  have hex : (extract_sku_from_name name).2 = "" := by
    unfold extract_sku_from_name
    rw [splitLastSpace_of_not_mem hs]
  refine ⟨hex, ?_, ?_⟩
  · simp only [get_price, hex]
    rfl
  · simp only [get_price, hex]
    rfl

/-- C6 witness: the theorem evaluated on the name `"ABC123"`. -/
theorem get_price_no_whitespace_witness :
    (extract_sku_from_name "ABC123").2 = "" ∧
    get_price noAdapter noAdapter "ABC123" = (none, "unknown") ∧
    priceResultOf (get_price noAdapter noAdapter "ABC123") =
      { price := none, source := Source.Unknown, sourceUrl := none } :=
  get_price_no_whitespace "ABC123" noAdapter noAdapter (by decide)

/-- C7: for every non-empty identifier, the router's output depends only
on the first character, and it is JustKampers (CatalogA) exactly when
that character is the letter `J` — case-sensitively, so a lower-case `j`
routes to Heritage (CatalogB), as does every other non-`J` start; the
function is total over non-empty strings by construction. -/
theorem router_first_char (sku sku2 : String) (_h : sku ≠ "") (_h2 : sku2 ≠ "")
    (hh : sku2.toList.head? = sku.toList.head?) :
    (determine_website sku = Website.justkampers ↔ sku.toList.head? = some 'J') ∧
    determine_website sku2 = determine_website sku := by
  constructor
  · rw [determine_website_head]
    by_cases hJ : sku.toList.head? = some 'J'
    · simp [hJ]
    · simp [hJ]
  · rw [determine_website_head, determine_website_head, hh]

/-- C7 witness: the theorem evaluated on `"J21066"` and `"J9"`. -/
theorem router_first_char_witness :
    (determine_website "J21066" = Website.justkampers ↔
      ("J21066" : String).toList.head? = some 'J') ∧
    determine_website "J9" = determine_website "J21066" :=
  router_first_char "J21066" "J9" (by decide) (by decide) (by decide)

/-- C10: for every item name whose extracted identifier is non-empty,
`get_price` tags the result with the routed catalog's display name
(`"JustKampers"` or `"Heritage Parts Centre"`) regardless of whether the
adapters find a price; the `"unknown"` source appears exactly when the
identifier is empty; and the source tag never depends on the adapters'
results. -/
theorem get_price_source_tag (jk her : String → Option ℚ) (name : String) :
    ((extract_sku_from_name name).2 ≠ "" →
        ((get_price jk her name).2 = "JustKampers" ∨
         (get_price jk her name).2 = "Heritage Parts Centre")) ∧
    ((get_price jk her name).2 = "unknown" ↔ (extract_sku_from_name name).2 = "") ∧
    (get_price jk her name).2 = (get_price noAdapter noAdapter name).2 := by
  by_cases hs : (extract_sku_from_name name).2 = ""
  · simp [get_price, hs]
  · cases hw : determine_website (extract_sku_from_name name).2 with
    | justkampers => simp [get_price, hs, hw]
    | heritage => simp [get_price, hs, hw]

/-- C10 witness: on `"Part J1"` the identifier `"J1"` is non-empty and
two priceless adapters still yield a catalog display name. -/
theorem get_price_source_tag_witness :
    (get_price noAdapter noAdapter "Part J1").2 = "JustKampers" ∨
    (get_price noAdapter noAdapter "Part J1").2 = "Heritage Parts Centre" :=
  (get_price_source_tag noAdapter noAdapter "Part J1").1 (by decide)

/-! ### Lemmas about `classifyRow` and the batch loop -/

theorem classifyRow_absent (oracle : String → Option ℚ × String) (render : ℚ → String)
    (row : Row) (cur : ℚ)
    (hc : currentPriceOf row = some cur)
    (ho : (oracle (itemNameOf row)).1 = none) :
    classifyRow oracle render row =
      Except.ok (row, Outcome.error (itemCodeOf row) (itemNameOf row) cur
        "Price not found") := by
  rcases hor : oracle (itemNameOf row) with ⟨p, src⟩
  rw [hor] at ho
  simp only at ho
  subst ho
  simp only [classifyRow, hc, hor]

theorem pyAbs_eq_abs (q : ℚ) : pyAbs q = |q| := by
  unfold pyAbs
  rcases lt_or_ge q 0 with hq | hq
  · rw [if_pos hq, abs_of_neg hq]
  · rw [if_neg (not_lt.mpr hq), abs_of_nonneg hq]

theorem mkRat_one_hundredth : mkRat 1 100 = (1 / 100 : ℚ) := by
  rw [Rat.mkRat_eq_divInt]
  norm_num [Rat.divInt_eq_div]

theorem classifyRow_present (oracle : String → Option ℚ × String) (render : ℚ → String)
    (row : Row) (cur newp : ℚ) (src : String)
    (hc : currentPriceOf row = some cur)
    (ho : oracle (itemNameOf row) = (some newp, src)) :
    classifyRow oracle render row =
      (if (1 / 100 : ℚ) < |newp - cur| then
        Except.ok (dictSet row "SalesUnitPrice" (render newp),
          Outcome.updated (itemCodeOf row) (itemNameOf row) cur newp (newp - cur)
            (diffPct cur (newp - cur)) src)
      else
        Except.ok (row, Outcome.unchanged (itemCodeOf row) (itemNameOf row) cur src)) := by
  simp only [classifyRow, hc, ho, mkRat_one_hundredth, pyAbs_eq_abs]

/-- C3: the adapter functions never raise to their caller — whenever the
body of a search raises (`Except.error`), the adapter returns the absent
price instead — and the batch loop turns an absent price into an `Error`
outcome for that row and continues: the outcome list always has one entry
per row, and a row with an absent price contributes an `Error` record
while the rest of the batch is processed unchanged. -/
theorem adapters_never_raise :
    (∀ (env : JKEnv) (sku e : String), jkBody env sku = Except.error e →
        search_justkampers env sku = none) ∧
    (∀ (env : HEnv) (sku e : String), hBody env sku = Except.error e →
        search_heritage env sku = none) ∧
    (∀ (oracle : String → Option ℚ × String) (render : ℚ → String)
        (rows : List Row) (out : List (Row × Outcome)),
        processItems oracle render rows = Except.ok out → out.length = rows.length) ∧
    (∀ (oracle : String → Option ℚ × String) (render : ℚ → String) (row : Row)
        (rows : List Row) (cur : ℚ) (rest : List (Row × Outcome)),
        (oracle (itemNameOf row)).1 = none →
        currentPriceOf row = some cur →
        processItems oracle render rows = Except.ok rest →
        processItems oracle render (row :: rows) =
          Except.ok ((row, Outcome.error (itemCodeOf row) (itemNameOf row) cur
            "Price not found") :: rest)) := by
  refine ⟨?_, ?_, ?_, ?_⟩
  · intro env sku e h
    unfold search_justkampers
    rw [h]
  · intro env sku e h
    unfold search_heritage
    rw [h]
  · intro oracle render rows
    induction rows with
    | nil =>
      intro out h
      simp only [processItems, Except.ok.injEq] at h
      rw [← h]
      rfl
    | cons r rs ih =>
      intro out h
      simp only [processItems] at h
      rcases h1 : classifyRow oracle render r with e | x
      · rw [h1] at h; simp at h
      · rw [h1] at h
        rcases h2 : processItems oracle render rs with e2 | xs
        · rw [h2] at h; simp at h
        · rw [h2] at h
          simp only [Except.ok.injEq] at h
          rw [← h]
          simp [ih xs h2]
  · intro oracle render row rows cur rest ho hc hrest
    have hcr := classifyRow_absent oracle render row cur hc ho
    simp only [processItems, hcr, hrest]

/-- C3 witness: a load failure in each adapter yields `none`, and a
one-row batch with an absent price yields one `Error` outcome. -/
theorem adapters_never_raise_witness :
    search_justkampers jkEnvErr "J1" = none ∧
    search_heritage hEnvErr "A1" = none ∧
    wOut.length = [wRow].length ∧
    processItems wOracleNone wRender [wRow] =
      Except.ok [(wRow, Outcome.error (itemCodeOf wRow) (itemNameOf wRow) 10
        "Price not found")] :=
  ⟨adapters_never_raise.1 jkEnvErr "J1" "timeout" rfl,
   adapters_never_raise.2.1 hEnvErr "A1" "timeout" rfl,
   adapters_never_raise.2.2.1 wOracleNone wRender [wRow] wOut rfl,
   adapters_never_raise.2.2.2 wOracleNone wRender wRow [] 10 [] rfl (by decide) rfl⟩

/-- C9: the percentage difference is computed by division only under the
guard `0 < current price` — the divisor is then nonzero — and is `0`
otherwise; and when the looked-up price is absent the row is classified
as an `Error` outcome with no difference or percentage computed. -/
theorem comparison_no_div_by_zero :
    (∀ cur diff : ℚ, ¬ 0 < cur → diffPct cur diff = 0) ∧
    (∀ cur diff : ℚ, 0 < cur → cur ≠ 0 ∧ diffPct cur diff = diff / cur * 100) ∧
    (∀ (oracle : String → Option ℚ × String) (render : ℚ → String) (row : Row) (cur : ℚ),
        currentPriceOf row = some cur → (oracle (itemNameOf row)).1 = none →
        classifyRow oracle render row =
          Except.ok (row, Outcome.error (itemCodeOf row) (itemNameOf row) cur
            "Price not found")) := by
  refine ⟨?_, ?_, ?_⟩
  · intro cur diff h
    simp [diffPct, h]
  · intro cur diff h
    exact ⟨ne_of_gt h, by simp [diffPct, h]⟩
  · intro oracle render row cur hc ho
    exact classifyRow_absent oracle render row cur hc ho

/-- C9 witness: a zero current price yields percentage `0`; a positive
current price has a provably nonzero divisor; an absent looked-up price
yields the `Error` outcome on `wRow`. -/
theorem comparison_no_div_by_zero_witness :
    diffPct 0 5 = 0 ∧
    ((10 : ℚ) ≠ 0 ∧ diffPct 10 5 = 5 / 10 * 100) ∧
    classifyRow wOracleNone wRender wRow =
      Except.ok (wRow, Outcome.error (itemCodeOf wRow) (itemNameOf wRow) 10
        "Price not found") :=
  ⟨comparison_no_div_by_zero.1 0 5 (by norm_num),
   comparison_no_div_by_zero.2.1 10 5 (by norm_num),
   comparison_no_div_by_zero.2.2 wOracleNone wRender wRow 10 (by decide) rfl⟩

/-- C4: for a row with a parsed current price and a present looked-up
price, the outcome is `Updated` exactly when `|new - old| > 0.01`
(strict), and `Unchanged` otherwise. -/
theorem update_threshold (oracle : String → Option ℚ × String) (render : ℚ → String)
    (row : Row) (cur newp : ℚ) (src : String)
    (hc : currentPriceOf row = some cur)
    (ho : oracle (itemNameOf row) = (some newp, src)) :
    ((1 / 100 : ℚ) < |newp - cur| →
        classifyRow oracle render row =
          Except.ok (dictSet row "SalesUnitPrice" (render newp),
            Outcome.updated (itemCodeOf row) (itemNameOf row) cur newp (newp - cur)
              (diffPct cur (newp - cur)) src)) ∧
    (¬ (1 / 100 : ℚ) < |newp - cur| →
        classifyRow oracle render row =
          Except.ok (row, Outcome.unchanged (itemCodeOf row) (itemNameOf row) cur src)) ∧
    (∀ (row2 : Row) (oc : Outcome), classifyRow oracle render row = Except.ok (row2, oc) →
        (oc.isUpdated = true ↔ (1 / 100 : ℚ) < |newp - cur|)) := by
  have key := classifyRow_present oracle render row cur newp src hc ho
  refine ⟨?_, ?_, ?_⟩
  · intro hgt
    rw [key, if_pos hgt]
  · intro hle
    rw [key, if_neg hle]
  · intro row2 oc h
    by_cases hgt : (1 / 100 : ℚ) < |newp - cur|
    · rw [key, if_pos hgt] at h
      simp only [Except.ok.injEq, Prod.mk.injEq] at h
      rw [← h.2]
      exact iff_of_true rfl hgt
    · rw [key, if_neg hgt] at h
      simp only [Except.ok.injEq, Prod.mk.injEq] at h
      rw [← h.2]
      exact iff_of_false (by simp [Outcome.isUpdated]) hgt

/-- C4 witness: against a current price of `10`, a looked-up price of
`10.01` (difference exactly `0.01`) is Unchanged and one of `10.0101`
(difference `0.0101`) is Updated. -/
theorem update_threshold_witness :
    classifyRow wOracleUnch wRender wRow =
      Except.ok (wRow, Outcome.unchanged (itemCodeOf wRow) (itemNameOf wRow) 10
        "Heritage Parts Centre") ∧
    classifyRow wOracleUpd wRender wRow =
      Except.ok (dictSet wRow "SalesUnitPrice" (wRender (mkRat 100101 10000)),
        Outcome.updated (itemCodeOf wRow) (itemNameOf wRow) 10 (mkRat 100101 10000)
          (mkRat 100101 10000 - 10) (diffPct 10 (mkRat 100101 10000 - 10))
          "Heritage Parts Centre") :=
  ⟨(update_threshold wOracleUnch wRender wRow 10 (mkRat 1001 100) "Heritage Parts Centre"
      (by decide) rfl).2.1
      (by
        have h1 : mkRat 1001 100 - (10 : ℚ) = 1 / 100 := by
          rw [Rat.mkRat_eq_divInt]
          norm_num [Rat.divInt_eq_div]
        rw [h1, abs_of_pos (by norm_num : (0 : ℚ) < 1 / 100)]
        norm_num),
   (update_threshold wOracleUpd wRender wRow 10 (mkRat 100101 10000) "Heritage Parts Centre"
      (by decide) rfl).1
      (by
        have h1 : mkRat 100101 10000 - (10 : ℚ) = 101 / 10000 := by
          rw [Rat.mkRat_eq_divInt]
          norm_num [Rat.divInt_eq_div]
        rw [h1, abs_of_pos (by norm_num : (0 : ℚ) < 101 / 10000)]
        norm_num)⟩

/-! ### Frame lemmas on rows -/

theorem dictGet_dictReplace (k v k2 : String) (hne : k2 ≠ k) :
    ∀ row : Row, dictGet (dictReplace row k v) k2 = dictGet row k2 := by
  intro row
  induction row with
  | nil => rfl
  | cons kv r ih =>
    simp only [dictReplace, dictGet]
    by_cases hk : (kv.1 == k) = true
    · rw [if_pos hk]
      have h1 : kv.1 = k := eq_of_beq hk
      have h2 : (k == k2) = false := beq_eq_false_iff_ne.mpr (Ne.symm hne)
      simp only [dictGet, h2, Bool.false_eq_true, if_false, h1, ih]
    · rw [if_neg hk]
      simp only [dictGet, ih]

theorem dictGet_append_single (k v k2 : String) (hne : k2 ≠ k) :
    ∀ row : Row, dictGet (row ++ [(k, v)]) k2 = dictGet row k2 := by
  intro row
  induction row with
  | nil =>
    have h2 : (k == k2) = false := beq_eq_false_iff_ne.mpr (Ne.symm hne)
    simp [dictGet, h2]
  | cons kv r ih =>
    simp only [List.cons_append, dictGet]
    rw [List.append_eq, ih]

theorem dictGet_dictSet_ne (row : Row) (k v k2 : String) (hne : k2 ≠ k) :
    dictGet (dictSet row k v) k2 = dictGet row k2 := by
  unfold dictSet
  by_cases h : hasKey row k = true
  · rw [if_pos h]
    exact dictGet_dictReplace k v k2 hne row
  · rw [if_neg h]
    exact dictGet_append_single k v k2 hne row

theorem keys_dictReplace (k v : String) :
    ∀ row : Row, (dictReplace row k v).map Prod.fst = row.map Prod.fst := by
  intro row
  induction row with
  | nil => rfl
  | cons kv r ih =>
    simp only [dictReplace, List.map_cons, ih]
    by_cases hk : (kv.1 == k) = true
    · rw [if_pos hk]
      simp [eq_of_beq hk]
    · rw [if_neg hk]

theorem keys_dictSet_of_hasKey (row : Row) (k v : String) (h : hasKey row k = true) :
    (dictSet row k v).map Prod.fst = row.map Prod.fst := by
  unfold dictSet
  rw [if_pos h]
  exact keys_dictReplace k v row

theorem classifyRow_frame (oracle : String → Option ℚ × String) (render : ℚ → String)
    (row row2 : Row) (oc : Outcome)
    (h : classifyRow oracle render row = Except.ok (row2, oc)) :
    (oc.isUpdated = false → row2 = row) ∧
    (∀ k2, k2 ≠ "SalesUnitPrice" → dictGet row2 k2 = dictGet row k2) ∧
    (hasKey row "SalesUnitPrice" = true → row2.map Prod.fst = row.map Prod.fst) := by
  rcases hc : currentPriceOf row with _ | cur
  · simp [classifyRow, hc] at h
  · rcases ho : oracle (itemNameOf row) with ⟨p, src⟩
    rcases p with _ | newp
    · simp only [classifyRow, hc, ho, Except.ok.injEq, Prod.mk.injEq] at h
      obtain ⟨h3, _⟩ := h
      rw [← h3]
      exact ⟨fun _ => rfl, fun _ _ => rfl, fun _ => rfl⟩
    · simp only [classifyRow, hc, ho] at h
      by_cases hgt : mkRat 1 100 < pyAbs (newp - cur)
      · rw [if_pos hgt] at h
        simp only [Except.ok.injEq, Prod.mk.injEq] at h
        obtain ⟨h3, h4⟩ := h
        rw [← h3]
        refine ⟨fun hupd => ?_,
          fun k2 hne => dictGet_dictSet_ne row "SalesUnitPrice" (render newp) k2 hne,
          fun hk => keys_dictSet_of_hasKey row "SalesUnitPrice" (render newp) hk⟩
        rw [← h4] at hupd
        simp [Outcome.isUpdated] at hupd
      · rw [if_neg hgt] at h
        simp only [Except.ok.injEq, Prod.mk.injEq] at h
        obtain ⟨h3, _⟩ := h
        rw [← h3]
        exact ⟨fun _ => rfl, fun _ _ => rfl, fun _ => rfl⟩

/-- C8: a successful batch run preserves row count and order — the
output list relates rows to results positionally — and a
row is written back byte-identical whenever its outcome is not
`Updated`; for every row, every field other than `SalesUnitPrice` is
byte-identical, and when the row has a `SalesUnitPrice` field the
written-back row keeps exactly the input's field names in order. -/
theorem process_frame (oracle : String → Option ℚ × String) (render : ℚ → String) :
    ∀ (rows : List Row) (out : List (Row × Outcome)),
      processItems oracle render rows = Except.ok out →
      rows.length = out.length ∧
      List.Forall₂ (fun (r : Row) (p : Row × Outcome) =>
        (p.2.isUpdated = false → p.1 = r) ∧
        (∀ k2, k2 ≠ "SalesUnitPrice" → dictGet p.1 k2 = dictGet r k2) ∧
        (hasKey r "SalesUnitPrice" = true → p.1.map Prod.fst = r.map Prod.fst)) rows out := by
  intro rows
  induction rows with
  | nil =>
    intro out h
    simp only [processItems, Except.ok.injEq] at h
    rw [← h]
    exact ⟨rfl, List.Forall₂.nil⟩
  | cons r rs ih =>
    intro out h
    simp only [processItems] at h
    rcases h1 : classifyRow oracle render r with e | x
    · rw [h1] at h; simp at h
    · rw [h1] at h
      rcases h2 : processItems oracle render rs with e2 | xs
      · rw [h2] at h; simp at h
      · rw [h2] at h
        simp only [Except.ok.injEq] at h
        rw [← h]
        rcases x with ⟨row2, oc⟩
        obtain ⟨hlen, hfa⟩ := ih xs h2
        exact ⟨by simp [hlen], List.Forall₂.cons
          (classifyRow_frame oracle render r row2 oc h1) hfa⟩

/-- C8 witness: the frame property evaluated on a one-row batch with an
absent price. -/
theorem process_frame_witness :
    ([wRow] : List Row).length = wOut.length ∧
    List.Forall₂ (fun (r : Row) (p : Row × Outcome) =>
      (p.2.isUpdated = false → p.1 = r) ∧
      (∀ k2, k2 ≠ "SalesUnitPrice" → dictGet p.1 k2 = dictGet r k2) ∧
      (hasKey r "SalesUnitPrice" = true → p.1.map Prod.fst = r.map Prod.fst)) [wRow] wOut :=
  process_frame wOracleNone wRender [wRow] wOut rfl

/-! ### Lemmas for the identity-match and cascade claims -/

theorem toList_mk (l : List Char) : (String.mk l).toList = l := rfl

theorem filter_dropWhile (q r : Char → Bool) (h : ∀ c, r c = true → q c = false) :
    ∀ m : List Char, List.filter q (m.dropWhile r) = List.filter q m := by
  intro m
  induction m with
  | nil => rfl
  | cons c cs ih =>
    cases hr : r c with
    | false => rw [List.dropWhile_cons_of_neg (by simp [hr])]
    | true =>
      rw [List.dropWhile_cons_of_pos hr, ih,
        List.filter_cons_of_neg (by simp [h c hr])]

theorem filter_money_rstripSlash (l : List Char) :
    List.filter (fun a => a != '/' && a != ' ') (rstripSlashList l) =
    List.filter (fun a => a != '/' && a != ' ') l := by
  unfold rstripSlashList
  rw [List.filter_reverse,
    filter_dropWhile (fun a => a != '/' && a != ' ') (fun c => c == '/')
      (fun c hc => by rw [eq_of_beq hc]; rfl) l.reverse,
    List.filter_reverse, List.reverse_reverse]

theorem specNormalize_rstripSlash (s : String) :
    specNormalize (pyRStripSlash s) = specNormalize s := by
  simp only [specNormalize, removeSpaces, removeSlashes, pyUpper, pyRStripSlash, toList_mk,
    List.filter_filter]
  rw [filter_money_rstripSlash]

theorem heritageNormalize_eq_specNormalize : heritageNormalize = specNormalize := rfl

theorem jkLoop_no_match (sku : String) :
    ∀ ps : List JKProduct, (∀ p ∈ ps, p.fault = none → jkMatch sku p = false) →
      jkLoop sku ps = none := by
  intro ps
  induction ps with
  | nil => intro _; rfl
  | cons p rest ih =>
    intro h
    have htail : ∀ q ∈ rest, q.fault = none → jkMatch sku q = false :=
      fun q hq hqf => h q (List.mem_cons_of_mem p hq) hqf
    rcases hf : p.fault with _ | e
    · have hm : jkMatch sku p = false := h p (List.mem_cons_self p rest) hf
      simp only [jkLoop, hf, Option.isSome_none, Bool.false_eq_true, if_false, hm]
      exact ih htail
    · simp only [jkLoop, hf, Option.isSome_some, if_true]
      exact ih htail

theorem hLoop_no_match (sku : String) :
    ∀ ps : List HProduct, (∀ p ∈ ps, p.fault = none → hMatch sku p = false) →
      hLoop sku ps = none := by
  intro ps
  induction ps with
  | nil => intro _; rfl
  | cons p rest ih =>
    intro h
    have htail : ∀ q ∈ rest, q.fault = none → hMatch sku q = false :=
      fun q hq hqf => h q (List.mem_cons_of_mem p hq) hqf
    rcases hf : p.fault with _ | e
    · have hm : hMatch sku p = false := h p (List.mem_cons_self p rest) hf
      simp only [hLoop, hf, Option.isSome_none, Bool.false_eq_true, if_false, hm]
      exact ih htail
    · simp only [hLoop, hf, Option.isSome_some, if_true]
      exact ih htail

theorem jkLoop_append_no_match (sku : String) :
    ∀ ps₁ rest : List JKProduct,
      (∀ q ∈ ps₁, q.fault = none → jkMatch sku q = false) →
      jkLoop sku (ps₁ ++ rest) = jkLoop sku rest := by
  intro ps₁
  induction ps₁ with
  | nil => intro rest _; rfl
  | cons p t ih =>
    intro rest h
    have htail : ∀ q ∈ t, q.fault = none → jkMatch sku q = false :=
      fun q hq hqf => h q (List.mem_cons_of_mem p hq) hqf
    rcases hf : p.fault with _ | e
    · have hm : jkMatch sku p = false := h p (List.mem_cons_self p t) hf
      simp only [List.cons_append, jkLoop, hf, Option.isSome_none, Bool.false_eq_true,
        if_false, hm]
      exact ih rest htail
    · simp only [List.cons_append, jkLoop, hf, Option.isSome_some, if_true]
      exact ih rest htail

theorem hLoop_append_no_match (sku : String) :
    ∀ ps₁ rest : List HProduct,
      (∀ q ∈ ps₁, q.fault = none → hMatch sku q = false) →
      hLoop sku (ps₁ ++ rest) = hLoop sku rest := by
  intro ps₁
  induction ps₁ with
  | nil => intro rest _; rfl
  | cons p t ih =>
    intro rest h
    have htail : ∀ q ∈ t, q.fault = none → hMatch sku q = false :=
      fun q hq hqf => h q (List.mem_cons_of_mem p hq) hqf
    rcases hf : p.fault with _ | e
    · have hm : hMatch sku p = false := h p (List.mem_cons_self p t) hf
      simp only [List.cons_append, hLoop, hf, Option.isSome_none, Bool.false_eq_true,
        if_false, hm]
      exact ih rest htail
    · simp only [List.cons_append, hLoop, hf, Option.isSome_some, if_true]
      exact ih rest htail

/-- C1 (amended): the two adapters do not share one normalization.  In
JustKampers the identity match succeeds exactly when the candidate's
first nonempty label equals the (whitespace-stripped) target after
upper-casing only — no space or slash removal; in Heritage it succeeds
exactly when the candidate's displayed identifier equals the target
after the spec's normalization (spaces and slashes removed,
upper-cased).  In both adapters, when no fault-free candidate matches
the result is absent, and the first fault-free matching candidate whose
price cascade succeeds determines the result — first match wins, later
candidates are never consulted. -/
theorem identity_match_normalization :
    (∀ (sku : String) (p : JKProduct), pyStrip sku = sku →
        (jkMatch sku p = true ↔ pyUpper (jkFirstLabel p.skuLabels) = pyUpper sku)) ∧
    (∀ (sku : String) (p : HProduct), pyStrip sku = sku →
        (hMatch sku p = true ↔
          specNormalize (hSkuText (hSearchSku sku) p) = specNormalize sku)) ∧
    (∀ (sku : String) (env : JKEnv),
        (∀ p ∈ env.products, p.fault = none → jkMatch sku p = false) →
        search_justkampers env sku = none) ∧
    (∀ (sku : String) (env : HEnv),
        (∀ p ∈ env.products, p.fault = none → hMatch sku p = false) →
        search_heritage env sku = none) ∧
    (∀ (sku : String) (ps₁ ps₂ : List JKProduct) (p : JKProduct) (price : ℚ),
        (∀ q ∈ ps₁, q.fault = none → jkMatch sku q = false) →
        p.fault = none → jkMatch sku p = true →
        jkCascade p.priceElems = SelRes.found price →
        search_justkampers { loadErr := none, products := ps₁ ++ p :: ps₂ } sku =
          some price) ∧
    (∀ (sku : String) (ps₁ ps₂ : List HProduct) (p : HProduct) (price : ℚ),
        (∀ q ∈ ps₁, q.fault = none → hMatch sku q = false) →
        p.fault = none → hMatch sku p = true →
        hListingCascade p.priceElems = some price →
        search_heritage { loadErr := none, gridPresent := true, products := ps₁ ++ p :: ps₂ }
          sku = some price) := by
  refine ⟨?_, ?_, ?_, ?_, ?_, ?_⟩
  · intro sku p hstrip
    unfold jkMatch jkTarget jkSearchSku
    rw [hstrip]
    exact beq_iff_eq
  · intro sku p hstrip
    unfold hMatch hTarget
    rw [heritageNormalize_eq_specNormalize]
    have hs : specNormalize (hSearchSku sku) = specNormalize sku := by
      unfold hSearchSku
      rw [hstrip, specNormalize_rstripSlash]
    rw [hs]
    exact beq_iff_eq
  · intro sku env h
    unfold search_justkampers jkBody
    rcases hl : env.loadErr with _ | e
    · simp only [jkLoop_no_match sku env.products h]
    · rfl
  · intro sku env h
    unfold search_heritage hBody
    rcases hl : env.loadErr with _ | e
    · by_cases hg : env.gridPresent = true
      · simp only [hg, if_true, hLoop_no_match sku env.products h]
      · simp only [Bool.not_eq_true] at hg
        simp only [hg, Bool.false_eq_true, if_false]
    · rfl
  · intro sku ps₁ ps₂ p price h hf hm hc
    have hu : search_justkampers { loadErr := none, products := ps₁ ++ p :: ps₂ } sku =
        jkLoop sku (ps₁ ++ p :: ps₂) := rfl
    rw [hu, jkLoop_append_no_match sku ps₁ (p :: ps₂) h]
    simp only [jkLoop, hf, Option.isSome_none, Bool.false_eq_true, if_false, hm, if_true, hc]
  · intro sku ps₁ ps₂ p price h hf hm hc
    have hu : search_heritage
        { loadErr := none, gridPresent := true, products := ps₁ ++ p :: ps₂ } sku =
        hLoop sku (ps₁ ++ p :: ps₂) := rfl
    rw [hu, hLoop_append_no_match sku ps₁ (p :: ps₂) h]
    simp only [hLoop, hf, Option.isSome_none, Bool.false_eq_true, if_false, hm, if_true, hc]

/-- C1 witness: the amended match characterizations, the
no-match-absent parts and first-match-wins evaluated on concrete
candidates — the searches pick the first matching candidate's price `5`
and ignore a later matching duplicate priced `7`. -/
theorem identity_match_normalization_witness :
    (jkMatch "J1" jkProductJ1 = true ↔
      pyUpper (jkFirstLabel jkProductJ1.skuLabels) = pyUpper "J1") ∧
    (hMatch "A1" hProductA1Zero = true ↔
      specNormalize (hSkuText (hSearchSku "A1") hProductA1Zero) = specNormalize "A1") ∧
    search_justkampers jkEnvJ1 "Z9" = none ∧
    search_heritage hEnvA1Zero "Z9" = none ∧
    search_justkampers
      { loadErr := none, products := [jkProductOther] ++ jkProductJ1 :: [jkProductJ1Late] }
      "J1" = some 5 ∧
    search_heritage
      { loadErr := none, gridPresent := true,
        products := [hProductOther] ++ hProductA1Five :: [hProductA1Late] }
      "A1" = some 5 :=
  ⟨identity_match_normalization.1 "J1" jkProductJ1 (by decide),
   identity_match_normalization.2.1 "A1" hProductA1Zero (by decide),
   identity_match_normalization.2.2.1 "Z9" jkEnvJ1 (by decide),
   identity_match_normalization.2.2.2.1 "Z9" hEnvA1Zero (by decide),
   identity_match_normalization.2.2.2.2.1 "J1" [jkProductOther] [jkProductJ1Late]
     jkProductJ1 5 (by decide) (by decide) (by decide) (by decide),
   identity_match_normalization.2.2.2.2.2 "A1" [hProductOther] [hProductA1Late]
     hProductA1Five 5 (by decide) (by decide) (by decide) (by decide)⟩

/-- C1 counterexample: the claim as stated is false for the JustKampers
adapter.  Target `"J 1"` and candidate label `"J1"` are equal under the
spec's normalization (remove spaces and slashes, upper-case), yet the
JustKampers match — which only upper-cases — fails, and the search
returns the absent result even though the same candidate (with an
extractable price of `5`) matches the target `"J1"`. -/
theorem identity_match_counterexample :
    specNormalize "J 1" = specNormalize "J1" ∧
    jkMatch "J 1" jkProductJ1 = false ∧
    search_justkampers jkEnvJ1 "J 1" = none ∧
    search_justkampers jkEnvJ1 "J1" = some 5 := by decide

/-- C2 (amended): only the Heritage in-listing cascade guards against
non-positive values: a value it returns is strictly positive, a
non-positive (or otherwise failed) selector yields nothing and the
cascade continues with the next strategy, an exhausted cascade yields
nothing, and a matched Heritage candidate whose listing cascade and
product page both fail is skipped, the loop continuing with the
remaining candidates.  (JustKampers and the Heritage product-page
fallback have no such guard — see the counterexample.) -/
theorem cascade_positive_guard :
    (∀ (oe : Option HPriceElem) (q : ℚ), hListingStep oe = some q → 0 < q) ∧
    (∀ (oe : Option HPriceElem) (es : List (Option HPriceElem)),
        hListingStep oe = none → hListingCascade (oe :: es) = hListingCascade es) ∧
    (∀ es : List (Option HPriceElem), (∀ oe ∈ es, hListingStep oe = none) →
        hListingCascade es = none) ∧
    (∀ (sku : String) (p : HProduct) (ps : List HProduct),
        p.fault = none → hMatch sku p = true →
        hListingCascade p.priceElems = none → p.linkPresent = true →
        pagePriceLoop p.pageTexts = none →
        hLoop sku (p :: ps) = hLoop sku ps) := by
  refine ⟨?_, ?_, ?_, ?_⟩
  · intro oe q h
    rcases oe with _ | e
    · simp [hListingStep] at h
    · simp only [hListingStep] at h
      by_cases ht : (hResolvedText e == "") = true
      · rw [if_pos ht] at h; simp at h
      · rw [if_neg ht] at h
        rcases hm : reSearchMoney (hResolvedText e) with _ | m
        · simp only [hm] at h
          simp at h
        · simp only [hm] at h
          rcases hp : pyFloat (removeCommas m) with _ | q2
          · simp only [hp] at h
            simp at h
          · simp only [hp] at h
            by_cases hq : 0 < q2
            · rw [if_pos hq] at h
              injection h with h2
              rw [← h2]
              exact hq
            · rw [if_neg hq] at h; simp at h
  · intro oe es h
    simp only [hListingCascade, h]
  · intro es h
    induction es with
    | nil => rfl
    | cons oe rest ih =>
      have hoe : hListingStep oe = none := h oe (List.mem_cons_self oe rest)
      simp only [hListingCascade, hoe]
      exact ih (fun q hq => h q (List.mem_cons_of_mem oe hq))
  · intro sku p ps hf hm hc hl hp
    simp only [hLoop, hf, Option.isSome_none, Bool.false_eq_true, if_false, hm, if_true,
      hc, hl, hp]

/-- C2 witness: the Heritage guard evaluated on concrete elements — a
`£5.00` element yields the positive `5`, a `£0.00` element is rejected
and the cascade continues, an all-rejected cascade is empty-handed, and
a matched candidate with no extractable price is skipped. -/
theorem cascade_positive_guard_witness :
    (0 : ℚ) < 5 ∧
    hListingCascade [some hElemZero] = hListingCascade [] ∧
    hListingCascade [some hElemZero] = none ∧
    hLoop "A1" [hProductA1Bare] = hLoop "A1" [] :=
  ⟨cascade_positive_guard.1 (some hElemFive) 5 (by decide),
   cascade_positive_guard.2.1 (some hElemZero) [] (by decide),
   cascade_positive_guard.2.2.1 [some hElemZero] (by decide),
   cascade_positive_guard.2.2.2 "A1" hProductA1Bare [] (by decide) (by decide) (by decide)
     (by decide) (by decide)⟩

/-- C2 counterexample: the claim as stated is false.  A JustKampers
candidate whose `data-price-amount` attribute is `"0"` makes the lookup
succeed with price `0`, and a Heritage candidate whose product page
displays `£0.00` makes the Heritage lookup succeed with price `0`
through the product-page fallback — in both cases a successful lookup
returns a non-positive price. -/
theorem cascade_positive_counterexample :
    search_justkampers jkEnvJ2Zero "J2" = some 0 ∧
    search_heritage hEnvA1Zero "A1" = some 0 ∧
    ¬ (0 : ℚ) < 0 := by decide

end VWDU
